import Mathlib

/-!
Verification development for the systemd-actuated legacy (v1) cgroup manager.

Go strings are modelled as `List Char` (`Str`); Go's `uint64`/`int64`
arithmetic is modelled over `Nat`/`Int` with explicit reduction modulo `2^64`
where the source converts or overflows.  Fallible Go functions return
`Except GoError` / `Option GoError` (`none` = Go `nil` error).  Effects that
the source performs against the host (dbus calls, cgroupfs reads/writes) are
modelled as explicit environment parameters holding each call's outcome.
-/

/-- Go strings, as lists of characters. -/
abbrev Str := List Char

/-- Convert a Lean string literal to the `Str` model. -/
def str (s : String) : Str := s.data

/-- The `".slice"` suffix used throughout `common.go`. -/
def sliceSuffix : Str := str ".slice"

/-- The error message built by `fmt.Errorf("invalid slice name: %s", slice)`. -/
def invalidSliceErr (slice : Str) : Str := str "invalid slice name: " ++ slice

/-- Model of `strings.Split(s, "-")` for the one-character separator `"-"`:
splits into the (possibly empty) runs between dashes.  `splitOnDash [] = [[]]`,
matching Go's `strings.Split("", "-") = [""]`. -/
def splitOnDash : Str → List Str
  | [] => [[]]
  | c :: cs =>
    match splitOnDash cs with
    | [] => [[c]]
    | g :: gs => if c = '-' then [] :: g :: gs else (c :: g) :: gs

/-- The loop body of `ExpandSlice` (common.go:73-82): walk the dash-separated
components left to right, accumulating the nested `path` and the growing
dash-joined `pfx` (`prefix` in the source); an empty component aborts with the
invalid-slice-name error. -/
def expandLoop (slice : Str) : List Str → Str → Str → Except Str Str
  | [], path, _ => .ok path
  | comp :: rest, path, pfx =>
    if comp = [] then .error (invalidSliceErr slice)
    else expandLoop slice rest (path ++ str "/" ++ pfx ++ comp ++ sliceSuffix)
      (pfx ++ comp ++ str "-")

/-- Model of `ExpandSlice` (common.go:55-84).  The name must end in `".slice"` (and the
length guard `len(slice) < len(suffix)` is kept verbatim), must not contain
`"/"`; `strings.TrimSuffix` is `take (length - 6)` here since the suffix is
known to be present; the literal root `-.slice` maps to `"/"`; otherwise the
components are walked by `expandLoop`. -/
def ExpandSlice (slice : Str) : Except Str Str :=
  if slice.length < sliceSuffix.length || !(sliceSuffix.isSuffixOf slice) then
    .error (invalidSliceErr slice)
  else if slice.contains '/' then
    .error (invalidSliceErr slice)
  else
    let sliceName := slice.take (slice.length - sliceSuffix.length)
    if sliceName = str "-" then .ok (str "/")
    else expandLoop slice (splitOnDash sliceName) [] []

/-- The cgroup configuration (`configs.Cgroup`), restricted to the fields the
legacy systemd manager reads.  `Paths` is the optional explicit
controller-to-path override map (`nil` map = `none`). -/
structure Resources where
  Memory : Int := 0
  CpuShares : Nat := 0
  CpuQuota : Int := 0
  CpuPeriod : Nat := 0
  BlkioWeight : Nat := 0
  PidsLimit : Int := 0
  KernelMemory : Int := 0
  Freezer : Str := []
deriving DecidableEq

structure Cgroup where
  Name : Str := []
  Parent : Str := []
  ScopePrefix : Str := []
  Paths : Option (List (Str × Str)) := none
  Resources : Resources := {}
deriving DecidableEq

/-- Model of `getUnitName` (common.go:93-99): a scope name is synthesized unless the
user explicitly asked for a slice. -/
def getUnitName (c : Cgroup) : Str :=
  if !(sliceSuffix.isSuffixOf c.Name) then
    c.ScopePrefix ++ str "-" ++ c.Name ++ str ".scope"
  else c.Name

/-- Model of `getUnitType` (common.go:101-107). -/
def getUnitType (unitName : Str) : Str :=
  if sliceSuffix.isSuffixOf unitName then str "Slice" else str "Scope"

-- ### helper lemmas about `ExpandSlice`

/-- An empty component anywhere in the list makes `expandLoop` fail. -/
theorem expandLoop_error_of_mem_nil (slice : Str) :
    ∀ (comps : List Str) (path pfx : Str), [] ∈ comps →
      expandLoop slice comps path pfx = .error (invalidSliceErr slice) := by
  intro comps
  induction comps with
  | nil => intro path pfx h; cases h
  | cons comp rest ih =>
    intro path pfx h
    by_cases hc : comp = ([] : Str)
    · simp [expandLoop, hc]
    · rcases List.mem_cons.mp h with h1 | h2
      · exact absurd h1.symm hc
      · simp only [expandLoop, if_neg hc]
        exact ih _ _ h2

/-- The suffix `".slice"` is never a suffix of a synthesized `"....scope"` name. -/
theorem sliceSuffix_not_suffix_of_scope (l : Str) :
    sliceSuffix.isSuffixOf (l ++ str ".scope") = false := by
  rw [Bool.eq_false_iff]
  intro hcon
  have hs : sliceSuffix <:+ l ++ str ".scope" := List.isSuffixOf_iff_suffix.mp hcon
  have hs2 : str ".scope" <:+ l ++ str ".scope" := List.suffix_append l (str ".scope")
  have heq : sliceSuffix = str ".scope" :=
    (List.suffix_of_suffix_length_le hs hs2 (by decide)).eq_of_length (by decide)
  exact absurd heq (by decide)

/-- C1: `ExpandSlice` maps `"test-a-b.slice"` to
`"/test.slice/test-a.slice/test-a-b.slice"` and `"-.slice"` to `"/"`, and
returns the invalid-slice-name error for every input that does not end in
`".slice"`, that contains `"/"`, or whose suffix-trimmed name has an empty
dash-separated component (other than the special-cased root name `"-"`,
which the claim itself maps to `"/"`). -/
theorem c1_expandSlice :
    ExpandSlice (str "test-a-b.slice") = .ok (str "/test.slice/test-a.slice/test-a-b.slice")
    ∧ ExpandSlice (str "-.slice") = .ok (str "/")
    ∧ ∀ slice : Str,
        (sliceSuffix.isSuffixOf slice = false
          ∨ slice.contains '/' = true
          ∨ (sliceSuffix.isSuffixOf slice = true
              ∧ slice.take (slice.length - sliceSuffix.length) ≠ str "-"
              ∧ [] ∈ splitOnDash (slice.take (slice.length - sliceSuffix.length)))) →
        ExpandSlice slice = .error (invalidSliceErr slice) := by
  refine ⟨rfl, rfl, ?_⟩
  intro slice h
  rcases h with h | h | ⟨h1, h2, h3⟩
  · unfold ExpandSlice
    rw [if_pos (by rw [h]; simp)]
  · unfold ExpandSlice
    split
    all_goals try rfl
  · have hsuf : sliceSuffix <:+ slice := List.isSuffixOf_iff_suffix.mp h1
    have hlen : ¬ (slice.length < sliceSuffix.length) :=
      Nat.not_lt.mpr hsuf.length_le
    unfold ExpandSlice
    rw [if_neg (by rw [h1]; simpa using hlen)]
    split
    · rfl
    · rw [if_neg h2]
      exact expandLoop_error_of_mem_nil _ _ _ _ h3

/-- Witness for C1 at the claim's own inputs: `"test--a.slice"` has an empty
dash component and is rejected. -/
theorem c1_expandSlice_witness :
    ExpandSlice (str "test--a.slice") = .error (invalidSliceErr (str "test--a.slice")) :=
  c1_expandSlice.2.2 (str "test--a.slice") (Or.inr (Or.inr (by decide)))

/-- C9: `getUnitName` returns the name itself for slices and the synthesized
`ScopePrefix + "-" + Name + ".scope"` otherwise, and `getUnitType` of the
resulting unit name is `"Slice"` exactly when the configured name ends in
`".slice"`, `"Scope"` otherwise. -/
theorem c9_unitName_unitType (c : Cgroup) :
    getUnitName c =
      (if sliceSuffix.isSuffixOf c.Name then c.Name
       else c.ScopePrefix ++ str "-" ++ c.Name ++ str ".scope")
    ∧ getUnitType (getUnitName c) =
      (if sliceSuffix.isSuffixOf c.Name then str "Slice" else str "Scope") := by
  constructor
  · by_cases h : sliceSuffix.isSuffixOf c.Name
    · simp [getUnitName, h]
    · simp only [Bool.not_eq_true] at h
      unfold getUnitName
      rw [h]
      simp
  · by_cases h : sliceSuffix.isSuffixOf c.Name
    · simp [getUnitName, getUnitType, h]
    · simp only [Bool.not_eq_true] at h
      have hsc := sliceSuffix_not_suffix_of_scope (c.ScopePrefix ++ str "-" ++ c.Name)
      unfold getUnitName getUnitType
      rw [h]
      simp only [Bool.not_false, if_true]
      rw [hsc]

-- ### Go error values and the dbus helpers (common.go:109-123)

/-- A Go `error` value, restricted to the observations this package makes of
one: the dbus error name when `errors.As` finds a `dbus.Error` inside
(`none` otherwise), whether `cgroups.IsNotFound(err)` holds, and the message. -/
structure GoError where
  dbusName : Option Str := none
  notFound : Bool := false
  msg : Str := []
deriving DecidableEq

/-- Go's `strings.Contains(s, sub)`: `sub` occurs as a contiguous substring
of `s`. -/
def goContains (s sub : Str) : Bool := decide (sub <:+: s)

/-- Model of `isDbusError` (common.go:110-118): the error carries a dbus error whose
name contains `name` (`strings.Contains(derr.Name, name)`). -/
def isDbusError (err : GoError) (name : Str) : Bool :=
  match err.dbusName with
  | some dn => goContains dn name
  | none => false

/-- Model of `isUnitExists` (common.go:121-123). -/
def isUnitExists (err : GoError) : Bool :=
  isDbusError err (str "org.freedesktop.systemd1.UnitExists")

/-- The completion-channel outcome of a transient-unit start/stop request:
either systemd delivered a completion status string within the 30-second
timer, or the timer fired first. -/
inductive UnitWaitOutcome
  | completion (s : Str)
  | timeout
deriving DecidableEq

/-- Model of `startUnit` (common.go:125-152).  `requestErr` is the outcome of the
`StartTransientUnitContext` call (made through `retryOnDisconnect`), `outcome`
the completion-channel wait.  A non-`"done"` status and a timeout both call
`resetFailedUnit` (best-effort, log-only: not modelled) and return an error;
a request error is returned unless it is the unit-already-exists dbus error,
which is swallowed. -/
def startUnit (unitName : Str) (requestErr : Option GoError) (outcome : UnitWaitOutcome) :
    Option GoError :=
  match requestErr with
  | none =>
    match outcome with
    | .completion s =>
      if s ≠ str "done" then
        some { msg := str "error creating systemd unit `" ++ unitName
                        ++ str "`: got `" ++ s ++ str "`" }
      else none
    | .timeout =>
      some { msg := str "Timeout waiting for systemd to create " ++ unitName }
  | some err => if !(isUnitExists err) then some err else none

/-- Model of `stopUnit` (common.go:154-176).  A request error is swallowed entirely
(the `if err == nil` block is skipped and the function returns `nil`); a
non-`"done"` completion status is only logged; only the 30-second timeout
produces an error. -/
def stopUnit (unitName : Str) (requestErr : Option GoError) (outcome : UnitWaitOutcome) :
    Option GoError :=
  match requestErr with
  | none =>
    match outcome with
    | .completion _s => none
    | .timeout =>
      some { msg := str "Timed out while waiting for systemd to remove " ++ unitName }
  | some _ => none

-- ### resource property translation

/-- A systemd dbus property value (`dbus.MakeVariant` payloads used here). -/
inductive PropValue
  | u64 (n : Nat)
  | u32s (ns : List Nat)
  | boolean (b : Bool)
  | strv (s : Str)
  | strs (ss : List Str)
deriving DecidableEq

/-- A named systemd property (`systemdDbus.Property`, built by `newProp`). -/
structure Property where
  name : Str
  value : PropValue
deriving DecidableEq

/-- The constant `defCPUQuotaPeriod` (common.go:26). -/
def defCPUQuotaPeriod : Nat := 100000

/-- Reduction modulo `2^64`: Go `uint64` arithmetic wraparound. -/
def u64Mod (n : Nat) : Nat := n % 2 ^ 64

/-- Go's `uint64(i)` conversion of an `int64` value (two's complement). -/
def toU64 (i : Int) : Nat := (i % (2 ^ 64 : Int)).toNat

/-- The value `math.MaxUint64`, "corresponds to USEC_INFINITY in systemd". -/
def MaxUint64 : Nat := 2 ^ 64 - 1

/-- The `cpuQuotaPerSecUSec` computation, appearing verbatim both in
`addCpuQuota` (common.go:261-277) and in `genV1ResourcesProperties`
(legacy manager, `apply_v1.go`): `USEC_INFINITY` unless `quota > 0`, else
`uint64(quota*1000000) / period` (the period defaulting to 100000 when 0 —
dead code at the `genV1ResourcesProperties` call site, whose guard already
requires a nonzero period) rounded up to the next multiple of 10000 when not
already one, in `uint64` arithmetic. -/
def cpuQuotaPerSecUSec (quota : Int) (period : Nat) : Nat :=
  if 0 < quota then
    let period := if period = 0 then defCPUQuotaPeriod else period
    let q := toU64 (quota * 1000000) / period
    if q % 10000 ≠ 0 then u64Mod ((q / 10000 + 1) * 10000) else q
  else MaxUint64

/-- Model of `addCpuQuota` (common.go:249-281).  `sdVer` is the cached systemd version
(`systemdVersion(cm)`); the `CPUQuotaPeriodUSec` property is only emitted on
systemd v242+ (otherwise only a debug message is logged). -/
def addCpuQuota (sdVer : Int) (properties : List Property) (quota : Int) (period : Nat) :
    List Property :=
  let properties :=
    if period ≠ 0 then
      if 242 ≤ sdVer then properties ++ [⟨str "CPUQuotaPeriodUSec", .u64 period⟩]
      else properties
    else properties
  if quota ≠ 0 ∨ period ≠ 0 then
    properties ++ [⟨str "CPUQuotaPerSecUSec", .u64 (cpuQuotaPerSecUSec quota period)⟩]
  else properties

/-- The property list built by `genV1ResourcesProperties` (legacy manager)
before its final kernel-memory gate; the source builds it inline in the same
order. -/
def v1Props (c : Cgroup) : List Property :=
  let properties : List Property := []
  let properties :=
    if c.Resources.Memory ≠ 0 then
      properties ++ [⟨str "MemoryLimit", .u64 (toU64 c.Resources.Memory)⟩]
    else properties
  let properties :=
    if c.Resources.CpuShares ≠ 0 then
      properties ++ [⟨str "CPUShares", .u64 c.Resources.CpuShares⟩]
    else properties
  let properties :=
    if c.Resources.CpuQuota ≠ 0 ∧ c.Resources.CpuPeriod ≠ 0 then
      properties ++ [⟨str "CPUQuotaPerSecUSec",
        .u64 (cpuQuotaPerSecUSec c.Resources.CpuQuota c.Resources.CpuPeriod)⟩]
    else properties
  let properties :=
    if c.Resources.BlkioWeight ≠ 0 then
      properties ++ [⟨str "BlockIOWeight", .u64 c.Resources.BlkioWeight⟩]
    else properties
  let properties :=
    if 0 < c.Resources.PidsLimit then
      properties ++ [⟨str "TasksAccounting", .boolean true⟩,
        ⟨str "TasksMax", .u64 (toU64 c.Resources.PidsLimit)⟩]
    else properties
  properties

/-- Model of `genV1ResourcesProperties` (legacy manager, `apply_v1.go`).  When the
kernel-memory limit is nonzero the source calls `setKernelMemory(c)` (a
cgroupfs write) after building the list and fails with its error; that call's
outcome is the `setKernelMemoryResult` parameter. -/
def genV1ResourcesProperties (c : Cgroup) (setKernelMemoryResult : Except GoError Unit) :
    Except GoError (List Property) :=
  if c.Resources.KernelMemory ≠ 0 then
    match setKernelMemoryResult with
    | .error e => .error e
    | .ok _ => .ok (v1Props c)
  else .ok (v1Props c)

-- ### shared helpers about the generated property lists

/-- Search by property name (`ps.any` on names): does the list carry a property named `n`. -/
def hasProp (ps : List Property) (n : Str) : Bool := ps.any (fun p => p.name == n)

/-- A successful `genV1ResourcesProperties` returns exactly the built list. -/
theorem genV1_ok_eq {c : Cgroup} {k : Except GoError Unit} {ps : List Property}
    (h : genV1ResourcesProperties c k = .ok ps) : ps = v1Props c := by
  unfold genV1ResourcesProperties at h
  split_ifs at h
  · cases k with
    | error e => cases h
    | ok u => exact (Except.ok.inj h).symm
  · exact (Except.ok.inj h).symm

/-- With `CpuQuota = 0` the built list has no `CPUQuotaPerSecUSec` property. -/
theorem v1Props_no_quota {c : Cgroup} (hq : c.Resources.CpuQuota = 0) :
    hasProp (v1Props c) (str "CPUQuotaPerSecUSec") = false := by
  have hnq : ¬(c.Resources.CpuQuota ≠ 0 ∧ c.Resources.CpuPeriod ≠ 0) := by
    intro hcon; exact hcon.1 hq
  simp only [v1Props]
  split_ifs <;> rfl

/-- With nonzero quota and period, the built list carries the
`CPUQuotaPerSecUSec` property with the computed value. -/
theorem v1Props_quota_mem {c : Cgroup} (hq : c.Resources.CpuQuota ≠ 0)
    (hp : c.Resources.CpuPeriod ≠ 0) :
    (⟨str "CPUQuotaPerSecUSec",
      .u64 (cpuQuotaPerSecUSec c.Resources.CpuQuota c.Resources.CpuPeriod)⟩ : Property)
      ∈ v1Props c := by
  simp only [v1Props]
  split_ifs <;>
    first
      | (exact absurd ⟨hq, hp⟩ ‹¬(c.Resources.CpuQuota ≠ 0 ∧ c.Resources.CpuPeriod ≠ 0)›)
      | (simp [List.mem_append])

/-- C2 counterexample: at quota 101 and period 10099 the computed
`CPUQuotaPerSecUSec` is 10000 (the exact quotient truncates to a multiple of
10000, so no rounding up happens), which is strictly below the exact rational
`101*1000000/10099 ≈ 10000.99`: `10000 * 10099 < 101 * 1000000`. -/
theorem c2_counterexample :
    cpuQuotaPerSecUSec 101 10099 = 10000
    ∧ cpuQuotaPerSecUSec 101 10099 * 10099 < 101 * 1000000 := by
  constructor
  · decide
  · decide

/-- C2 (amended): for quota > 0 and period > 0 with `quota*1000000` free of
64-bit overflow, the computed `CPUQuotaPerSecUSec` is a multiple of 10000 and
is at least the integer quotient `quota*1000000/period` (the floor of the
exact rational; the bound against the exact rational itself fails, see the
counterexample).  The last two conjuncts tie the computed value to what
`addCpuQuota` and `genV1ResourcesProperties` actually emit. -/
theorem c2_quota_rounding (quota : Int) (period : Nat)
    (hq : 0 < quota) (hp : 0 < period) (hov : quota * 1000000 < 2 ^ 64) :
    cpuQuotaPerSecUSec quota period % 10000 = 0
    ∧ (quota * 1000000).toNat / period ≤ cpuQuotaPerSecUSec quota period
    ∧ (∀ (sdVer : Int) (props : List Property),
        (⟨str "CPUQuotaPerSecUSec", .u64 (cpuQuotaPerSecUSec quota period)⟩ : Property)
          ∈ addCpuQuota sdVer props quota period)
    ∧ ∀ (c : Cgroup) (k : Except GoError Unit) (ps : List Property),
        c.Resources.CpuQuota = quota → c.Resources.CpuPeriod = period →
        genV1ResourcesProperties c k = .ok ps →
        (⟨str "CPUQuotaPerSecUSec", .u64 (cpuQuotaPerSecUSec quota period)⟩ : Property)
          ∈ ps := by
  have hp0 : period ≠ 0 := Nat.pos_iff_ne_zero.mp hp
  have hnn : (0 : Int) ≤ quota * 1000000 := by positivity
  have htoU : toU64 (quota * 1000000) = (quota * 1000000).toNat := by
    unfold toU64
    rw [Int.emod_eq_of_lt hnn hov]
  have hkey : cpuQuotaPerSecUSec quota period =
      (if (quota * 1000000).toNat / period % 10000 ≠ 0 then
        u64Mod (((quota * 1000000).toNat / period / 10000 + 1) * 10000)
      else (quota * 1000000).toNat / period) := by
    simp only [cpuQuotaPerSecUSec, if_pos hq, if_neg hp0, htoU]
  have hmain : cpuQuotaPerSecUSec quota period % 10000 = 0
      ∧ (quota * 1000000).toNat / period ≤ cpuQuotaPerSecUSec quota period := by
    set N := (quota * 1000000).toNat with hN
    have hNlt : N < 2 ^ 64 := by omega
    set q := N / period with hqdef
    by_cases hmod : q % 10000 = 0
    · rw [hkey, if_neg (by simpa using hmod)]
      exact ⟨hmod, le_refl _⟩
    · have hNval : N = quota.toNat * 1000000 := by omega
      have hper1 : period ≠ 1 := by
        intro h1
        apply hmod
        rw [hqdef, h1, Nat.div_one, hNval]
        have : quota.toNat * 1000000 = quota.toNat * 100 * 10000 := by ring
        rw [this, Nat.mul_mod_left]
      have hper2 : 2 ≤ period := by omega
      have hq2 : q ≤ N / 2 := Nat.div_le_div_left hper2 (by norm_num)
      have hN2 : N / 2 ≤ (2 ^ 64 - 1) / 2 := Nat.div_le_div_right (by omega)
      have hqbound : q ≤ 2 ^ 63 - 1 := by
        have : ((2 : Nat) ^ 64 - 1) / 2 = 2 ^ 63 - 1 := by norm_num
        omega
      have hdm := Nat.div_add_mod q 10000
      have hmlt : q % 10000 < 10000 := Nat.mod_lt _ (by norm_num)
      have hrlt : (q / 10000 + 1) * 10000 < 2 ^ 64 := by omega
      rw [hkey, if_pos (by simpa using hmod)]
      unfold u64Mod
      rw [Nat.mod_eq_of_lt hrlt]
      exact ⟨by omega, by omega⟩
  refine ⟨hmain.1, hmain.2, ?_, ?_⟩
  · intro sdVer props
    simp only [addCpuQuota]
    rw [if_pos hp0, if_pos (Or.inr hp0)]
    exact List.mem_append_right _ (List.mem_singleton.mpr rfl)
  · intro c k ps h1 h2 h3
    rw [genV1_ok_eq h3]
    have hq' : c.Resources.CpuQuota ≠ 0 := by rw [h1]; exact ne_of_gt hq
    have hp' : c.Resources.CpuPeriod ≠ 0 := by rw [h2]; exact hp0
    have hm := v1Props_quota_mem hq' hp'
    rw [h1, h2] at hm
    exact hm

/-- Witness for C2 (amended) at quota 3, period 2: computed value 1500000. -/
theorem c2_quota_rounding_witness :
    cpuQuotaPerSecUSec 3 2 % 10000 = 0
    ∧ ((3 : Int) * 1000000).toNat / 2 ≤ cpuQuotaPerSecUSec 3 2 :=
  ⟨(c2_quota_rounding 3 2 (by decide) (by decide) (by decide)).1,
   (c2_quota_rounding 3 2 (by decide) (by decide) (by decide)).2.1⟩

/-- The C3 counterexample configuration: quota 0 (hence ≤ 0), period 1000. -/
def cexC3 : Cgroup := { Resources := { CpuPeriod := 1000 } }

/-- C3 counterexample: with quota = 0 and period = 1000 (so quota ≤ 0 and
period ≠ 0), `genV1ResourcesProperties` emits no property at all — in
particular no `CPUQuotaPerSecUSec` sentinel, contradicting the claim's
"whenever quota ≤ 0 and period ≠ 0 ... for both addCpuQuota and
genV1ResourcesProperties". -/
theorem c3_counterexample :
    cexC3.Resources.CpuQuota ≤ 0
    ∧ cexC3.Resources.CpuPeriod ≠ 0
    ∧ genV1ResourcesProperties cexC3 (.ok ()) = .ok [] :=
  ⟨by decide, by decide, rfl⟩

/-- C3 (amended): with quota = 0 and period = 0, `addCpuQuota` emits nothing;
with quota ≤ 0 and period ≠ 0, `addCpuQuota` emits the `USEC_INFINITY`
sentinel (`math.MaxUint64`) as `CPUQuotaPerSecUSec` (after the version-gated
`CPUQuotaPeriodUSec`); `genV1ResourcesProperties`, whose guard also requires
a nonzero quota, emits no `CPUQuotaPerSecUSec` whenever quota = 0 (whatever
the period), and emits the sentinel when quota < 0 and period ≠ 0. -/
theorem c3_quota_zero_and_sentinel :
    (∀ (sdVer : Int) (props : List Property), addCpuQuota sdVer props 0 0 = props)
    ∧ (∀ (sdVer : Int) (props : List Property) (quota : Int) (period : Nat),
        quota ≤ 0 → period ≠ 0 →
        addCpuQuota sdVer props quota period =
          (if 242 ≤ sdVer then props ++ [⟨str "CPUQuotaPeriodUSec", .u64 period⟩]
           else props)
          ++ [⟨str "CPUQuotaPerSecUSec", .u64 MaxUint64⟩])
    ∧ (∀ (c : Cgroup) (k : Except GoError Unit) (ps : List Property),
        c.Resources.CpuQuota = 0 →
        genV1ResourcesProperties c k = .ok ps →
        hasProp ps (str "CPUQuotaPerSecUSec") = false)
    ∧ ∀ (c : Cgroup) (k : Except GoError Unit) (ps : List Property),
        c.Resources.CpuQuota < 0 → c.Resources.CpuPeriod ≠ 0 →
        genV1ResourcesProperties c k = .ok ps →
        (⟨str "CPUQuotaPerSecUSec", .u64 MaxUint64⟩ : Property) ∈ ps := by
  refine ⟨fun sdVer props => rfl, ?_, ?_, ?_⟩
  · intro sdVer props quota period hq hp
    simp only [addCpuQuota]
    rw [if_pos hp, if_pos (Or.inr hp)]
    have hv : cpuQuotaPerSecUSec quota period = MaxUint64 := by
      unfold cpuQuotaPerSecUSec
      rw [if_neg (by omega)]
    rw [hv]
  · intro c k ps hq h
    rw [genV1_ok_eq h]
    exact v1Props_no_quota hq
  · intro c k ps hq hp h
    rw [genV1_ok_eq h]
    have hm := v1Props_quota_mem (by omega) hp
    have hv : cpuQuotaPerSecUSec c.Resources.CpuQuota c.Resources.CpuPeriod = MaxUint64 := by
      unfold cpuQuotaPerSecUSec
      rw [if_neg (by omega)]
    rw [hv] at hm
    exact hm

/-- Witness for C3 (amended), exercising all four conjuncts at concrete
inputs (systemd version 245, quota −1, period 5; quota 0, period 7). -/
theorem c3_quota_zero_and_sentinel_witness :
    addCpuQuota 245 [] 0 0 = []
    ∧ addCpuQuota 245 [] (-1) 5 =
        (if (242 : Int) ≤ 245 then
          ([] : List Property) ++ [⟨str "CPUQuotaPeriodUSec", .u64 5⟩]
         else [])
        ++ [⟨str "CPUQuotaPerSecUSec", .u64 MaxUint64⟩]
    ∧ hasProp (v1Props { Resources := { CpuPeriod := 7 } }) (str "CPUQuotaPerSecUSec") = false
    ∧ (⟨str "CPUQuotaPerSecUSec", .u64 MaxUint64⟩ : Property)
        ∈ v1Props { Resources := { CpuQuota := -1, CpuPeriod := 5 } } :=
  ⟨c3_quota_zero_and_sentinel.1 245 [],
   c3_quota_zero_and_sentinel.2.1 245 [] (-1) 5 (by decide) (by decide),
   c3_quota_zero_and_sentinel.2.2.1 { Resources := { CpuPeriod := 7 } } (.ok ()) _ rfl rfl,
   c3_quota_zero_and_sentinel.2.2.2 { Resources := { CpuQuota := -1, CpuPeriod := 5 } }
     (.ok ()) _ (by decide) (by decide) rfl⟩

-- ### the legacy (v1) systemd manager

/-- The manager state: configuration plus the mutex-guarded resolved
controller-to-path map (`LegacyManager`, `apply_v1.go`). -/
structure LegacyManager where
  Cgroups : Cgroup
  Paths : List (Str × Str)
deriving DecidableEq

/-- The ordered registry `legacySubsystems` (names of the fs subsystem
variants, in source order). -/
def legacySubsystemNames : List Str :=
  [str "cpuset", str "devices", str "memory", str "cpu", str "cpuacct",
   str "pids", str "blkio", str "hugetlb", str "perf_event", str "freezer",
   str "net_prio", str "net_cls", str "name=systemd"]

/-- The error `errSubsystemDoesNotExist`. -/
def errSubsystemDoesNotExist : GoError := { msg := str "cgroup: subsystem does not exist" }

/-- Model of `subsystemSet.Get(name)`: linear scan of the registry; modelled as the
membership test on the name list (the variant itself carries no state the
manager reads — its `Set`/`GetStats`/`ApplyDir` outcomes are environment
parameters). -/
def subsystemsGet (name : Str) : Except GoError Unit :=
  if name ∈ legacySubsystemNames then .ok () else .error errSubsystemDoesNotExist

/-- The host/daemon-dependent outcomes consumed by the per-controller join
pass: `getSubsystemPath` resolution per controller, `os.MkdirAll` and
`cgroups.WriteCgroupProc` per resolved path, and the cpuset collaborator's
`ApplyDir` per path. -/
structure JoinEnv where
  subsysPath : Str → Except GoError Str
  mkdirAll : Str → Option GoError
  writeCgroupProc : Str → Option GoError
  cpusetApplyDir : Str → Option GoError

/-- Model of `join(c, subsystem, pid)` (`apply_v1.go`): resolve the controller path,
create the directory, attach the pid. -/
def join (env : JoinEnv) (name : Str) : Except GoError Str :=
  match env.subsysPath name with
  | .error e => .error e
  | .ok path =>
    match env.mkdirAll path with
    | some e => .error e
    | none =>
      match env.writeCgroupProc path with
      | some e => .error e
      | none => .ok path

/-- The `"cpuset"` arm of `joinCgroups`: a non-not-found path resolution
error is fatal; otherwise `ApplyDir` runs on the resolved path (which is the
empty string when resolution failed with not-found, as in Go). -/
def cpusetStep (env : JoinEnv) : Option GoError :=
  match env.subsysPath (str "cpuset") with
  | .error e => if ¬ e.notFound then some e else env.cpusetApplyDir []
  | .ok path => env.cpusetApplyDir path

/-- One iteration of the `joinCgroups` loop for controller `name`:
`"name=systemd"` is left to systemd; `"cpuset"` uses `ApplyDir`; for the
rest, any `join` failure is fatal for `"devices"`, and only non-not-found
failures are fatal otherwise. -/
def joinStep (env : JoinEnv) (name : Str) : Option GoError :=
  if name = str "name=systemd" then none
  else if name = str "cpuset" then cpusetStep env
  else
    match join env name with
    | .error e =>
      if name = str "devices" then some e
      else if ¬ e.notFound then some e
      else none
    | .ok _ => none

def joinCgroupsAux (env : JoinEnv) : List Str → Option GoError
  | [] => none
  | n :: rest =>
    match joinStep env n with
    | some e => some e
    | none => joinCgroupsAux env rest

/-- Model of `joinCgroups(c, pid)` (`apply_v1.go`): the per-controller join pass over
the fixed registry, stopping at the first fatal error. -/
def joinCgroups (env : JoinEnv) : Option GoError := joinCgroupsAux env legacySubsystemNames

/-- The final path-resolution loop of `Apply`: record each controller's
resolved path, skipping controllers whose hierarchy is not found. -/
def resolvePaths (env : JoinEnv) : List Str → Except GoError (List (Str × Str))
  | [] => .ok []
  | n :: rest =>
    match env.subsysPath n with
    | .error e => if e.notFound then resolvePaths env rest else .error e
    | .ok p =>
      match resolvePaths env rest with
      | .error e => .error e
      | .ok ps => .ok ((n, p) :: ps)

/-- The explicit-path branch of `Apply`: keep each configured override whose
controller hierarchy resolves, skip not-found ones, abort on other errors
(map iteration is modelled in list order). -/
def explicitPaths (env : JoinEnv) : List (Str × Str) → Except GoError (List (Str × Str))
  | [] => .ok []
  | (name, path) :: rest =>
    match env.subsysPath name with
    | .error e => if e.notFound then explicitPaths env rest else .error e
    | .ok _ =>
      match explicitPaths env rest with
      | .error e => .error e
      | .ok ps => .ok ((name, path) :: ps)

/-- Builder `systemdDbus.PropDescription`. -/
def PropDescription (s : Str) : Property := ⟨str "Description", .strv s⟩

/-- Builder `systemdDbus.PropWants(slice)`. -/
def PropWants (s : Str) : Property := ⟨str "Wants", .strs [s]⟩

/-- Builder `systemdDbus.PropSlice(slice)`. -/
def PropSlice (s : Str) : Property := ⟨str "Slice", .strv s⟩

/-- Go's `uint32(pid)` conversion. -/
def toU32 (i : Int) : Nat := (i % (2 ^ 32 : Int)).toNat

/-- The environment of one `Apply` run: the join-pass outcomes, the outcome
of the `startUnit` call (as a function of the unit name and property list it
is given), the `cgroups.EnterPid` outcome (explicit-path mode), and the
`setKernelMemory` outcome consumed by `genV1ResourcesProperties`. -/
structure ApplyEnv where
  jenv : JoinEnv
  startUnit : Str → List Property → Option GoError
  enterPid : Option GoError
  setKernelMemoryResult : Except GoError Unit

/-- Model of `LegacyManager.Apply(pid)` (`apply_v1.go`).  Explicit-path mode records
the override paths (then attaches the pid); otherwise the property list is
built exactly in source order, the transient unit is started, the join pass
runs, and the per-controller paths are resolved and stored. -/
def LegacyManager.Apply (m : LegacyManager) (pid : Int) (env : ApplyEnv) :
    Option GoError × LegacyManager :=
  let c := m.Cgroups
  let unitName := getUnitName c
  match c.Paths with
  | some cpaths =>
    match explicitPaths env.jenv cpaths with
    | .error e => (some e, m)
    | .ok paths => (env.enterPid, { m with Paths := paths })
  | none =>
    let slice := if c.Parent ≠ [] then c.Parent else str "system.slice"
    let properties := [PropDescription (str "libcontainer container " ++ c.Name)]
    let properties := properties ++
      (if sliceSuffix.isSuffixOf unitName then [PropWants slice] else [PropSlice slice])
    let properties := properties ++
      (if pid ≠ -1 then [⟨str "PIDs", .u32s [toU32 pid]⟩] else [])
    let properties := properties ++
      (if !(sliceSuffix.isSuffixOf unitName) then [⟨str "Delegate", .boolean true⟩] else [])
    let properties := properties ++
      [⟨str "MemoryAccounting", .boolean true⟩, ⟨str "CPUAccounting", .boolean true⟩,
       ⟨str "BlockIOAccounting", .boolean true⟩, ⟨str "DefaultDependencies", .boolean false⟩]
    match genV1ResourcesProperties c env.setKernelMemoryResult with
    | .error e => (some e, m)
    | .ok resourcesProperties =>
      let properties := properties ++ resourcesProperties
      match env.startUnit unitName properties with
      | some e => (some e, m)
      | none =>
        match joinCgroups env.jenv with
        | some e => (some e, m)
        | none =>
          match resolvePaths env.jenv legacySubsystemNames with
          | .error e => (some e, m)
          | .ok paths => (none, { m with Paths := paths })

/-- The externally observable calls `Destroy`/`Set` make, for frame
properties (explicit-path mode must make none). -/
inductive CallEvent
  | stopUnitCall (unit : Str)
  | dbusConnect
  | setUnitPropertiesCall
  | subsysSetCall (name : Str)
  | checkCpusharesCall
deriving DecidableEq

/-- Model of `LegacyManager.Destroy()` (`apply_v1.go`): a no-op returning `nil` in
explicit-path mode; otherwise `stopUnit(getUnitName(m.Cgroups))` runs (its
result is the `stopErr` parameter), an error is returned as-is with the path
map untouched, and on success the path map is reset to empty. -/
def LegacyManager.Destroy (m : LegacyManager) (stopErr : Option GoError) :
    Option GoError × LegacyManager × List CallEvent :=
  if m.Cgroups.Paths.isSome then (none, m, [])
  else
    match stopErr with
    | some e => (some e, m, [.stopUnitCall (getUnitName m.Cgroups)])
    | none => (none, { m with Paths := [] }, [.stopUnitCall (getUnitName m.Cgroups)])

/-- Model of `LegacyManager.GetPaths()`. -/
def LegacyManager.GetPaths (m : LegacyManager) : List (Str × Str) := m.Paths

/-- Model of `LegacyManager.Freeze(state)` (`apply_v1.go`): resolve the freezer path,
optimistically store the requested state in the shared configuration, fetch
the freezer subsystem from the registry, run its `Set` (outcome
`freezerSetErr`), and roll the configuration back on failure. -/
def LegacyManager.Freeze (m : LegacyManager) (state : Str)
    (freezerPath : Except GoError Str) (freezerSetErr : Option GoError) :
    Option GoError × LegacyManager :=
  match freezerPath with
  | .error e => (some e, m)
  | .ok _path =>
    let prevState := m.Cgroups.Resources.Freezer
    let m1 : LegacyManager :=
      { m with Cgroups :=
        { m.Cgroups with Resources := { m.Cgroups.Resources with Freezer := state } } }
    match subsystemsGet (str "freezer") with
    | .error e => (some e, m1)
    | .ok _ =>
      match freezerSetErr with
      | some e =>
        (some e,
         { m1 with Cgroups :=
           { m1.Cgroups with Resources :=
             { m1.Cgroups.Resources with Freezer := prevState } } })
      | none => (none, m1)

/-- The environment of one `Set` run: the `setKernelMemory` outcome consumed
by `genV1ResourcesProperties`, the dbus connection and `SetUnitProperties`
outcomes, per-controller path resolution and per-controller `Set` outcomes,
and the `CheckCpushares` outcome. -/
structure SetEnv where
  setKernelMemoryResult : Except GoError Unit
  getDbusConnection : Option GoError
  setUnitProperties : Option GoError
  subsysPath : Str → Except GoError Str
  subsysSet : Str → Option GoError
  checkCpushares : Option GoError

/-- The per-subsystem loop of `Set`: resolve the path (only non-not-found
resolution errors are fatal), then run the subsystem's own `Set` (which gets
an empty path when resolution failed with not-found, as in Go). -/
def setSubsysLoop (env : SetEnv) : List Str → Option GoError × List CallEvent
  | [] => (none, [])
  | n :: rest =>
    match env.subsysPath n with
    | .error e =>
      if ¬ e.notFound then (some e, [])
      else
        match env.subsysSet n with
        | some e2 => (some e2, [.subsysSetCall n])
        | none =>
          let r := setSubsysLoop env rest
          (r.1, .subsysSetCall n :: r.2)
    | .ok _ =>
      match env.subsysSet n with
      | some e2 => (some e2, [.subsysSetCall n])
      | none =>
        let r := setSubsysLoop env rest
        (r.1, .subsysSetCall n :: r.2)

/-- Go's `m.Paths["cpu"]`: map lookup with the zero value `""` for a missing
key. -/
def lookupPath (l : List (Str × Str)) (k : Str) : Str :=
  ((l.find? (fun p => p.1 == k)).map Prod.snd).getD []

/-- Model of `LegacyManager.Set(container)` (`apply_v1.go`): a no-op returning `nil`
in explicit-path mode (and the method body never assigns `m.Paths`, so the
path map is structurally unchanged); otherwise translate the resources, push
them over dbus, run every subsystem's `Set`, and finally cross-check the cpu
shares when a cpu path is recorded.  The second component lists the external
calls made. -/
def LegacyManager.Set (m : LegacyManager) (container : Cgroup) (env : SetEnv) :
    Option GoError × List CallEvent :=
  if m.Cgroups.Paths.isSome then (none, [])
  else
    match genV1ResourcesProperties container env.setKernelMemoryResult with
    | .error e => (some e, [])
    | .ok _properties =>
      match env.getDbusConnection with
      | some e => (some e, [.dbusConnect])
      | none =>
        match env.setUnitProperties with
        | some e => (some e, [.dbusConnect, .setUnitPropertiesCall])
        | none =>
          let r := setSubsysLoop env legacySubsystemNames
          let evs := CallEvent.dbusConnect :: CallEvent.setUnitPropertiesCall :: r.2
          match r.1 with
          | some e => (some e, evs)
          | none =>
            if lookupPath m.Paths (str "cpu") ≠ [] then
              match env.checkCpushares with
              | some e => (some e, evs ++ [.checkCpusharesCall])
              | none => (none, evs ++ [.checkCpusharesCall])
            else (none, evs)

-- ### C4: stopUnit error policy

/-- C4 counterexample: a timeout of the 30-second stop wait is NOT swallowed;
`stopUnit` returns an error for it. -/
theorem c4_counterexample :
    stopUnit (str "foo.scope") none UnitWaitOutcome.timeout ≠ none := by decide

/-- C4 (amended): every received completion status — `"done"` or not — is
swallowed by `stopUnit` (a non-`"done"` one is only logged), as is a stop
request error; but a timeout of the 30-second wait returns an error.  Hence
`Destroy` cannot fail because of an unexpected received stop status (last
conjunct), though it does fail on a stop timeout. -/
theorem c4_stopUnit_swallows_status :
    (∀ (n : Str) (req : Option GoError) (s : Str),
      stopUnit n req (.completion s) = none)
    ∧ (∀ (n : Str) (e : GoError) (o : UnitWaitOutcome), stopUnit n (some e) o = none)
    ∧ (∀ n : Str, stopUnit n none .timeout =
        some { msg := str "Timed out while waiting for systemd to remove " ++ n })
    ∧ ∀ (m : LegacyManager) (s : Str),
        (LegacyManager.Destroy { m with Cgroups := { m.Cgroups with Paths := none } }
          (stopUnit (getUnitName m.Cgroups) none (.completion s))).1 = none := by
  refine ⟨?_, fun n e o => rfl, fun n => rfl, ?_⟩
  · intro n req s
    cases req <;> rfl
  · intro m s
    rfl

-- ### C5: startUnit and the unit-already-exists error

/-- The specific dbus error systemd returns when the unit already exists. -/
def unitExistsErr : GoError :=
  { dbusName := some (str "org.freedesktop.systemd1.UnitExists")
  , msg := str "unit already exists" }

/-- C5 counterexample: when the creation request fails with the
unit-already-exists dbus error, `startUnit` does NOT return that error to its
caller — it swallows it and returns `nil` itself (`Apply` contains no
special-casing). -/
theorem c5_counterexample :
    isUnitExists unitExistsErr = true
    ∧ startUnit (str "a.scope") (some unitExistsErr) (.completion (str "done")) = none := by
  exact ⟨by decide, by decide⟩

/-- C5 (amended): a unit-already-exists creation error is swallowed inside
`startUnit` itself (which returns `nil`), so `Apply` behaves exactly as if
unit creation had succeeded; every other creation error is returned by
`startUnit` as-is and aborts `Apply` with that error. -/
theorem c5_startUnit_already_exists :
    (∀ (n : Str) (e : GoError) (o : UnitWaitOutcome),
      isUnitExists e = true → startUnit n (some e) o = none)
    ∧ (∀ (n : Str) (e : GoError) (o : UnitWaitOutcome),
      isUnitExists e = false → startUnit n (some e) o = some e)
    ∧ (∀ (m : LegacyManager) (pid : Int) (j : JoinEnv) (ep : Option GoError)
        (km : Except GoError Unit) (e : GoError) (o : UnitWaitOutcome),
        isUnitExists e = true →
        LegacyManager.Apply m pid
          ⟨j, fun nm _ps => startUnit nm (some e) o, ep, km⟩
        = LegacyManager.Apply m pid ⟨j, fun _nm _ps => none, ep, km⟩)
    ∧ ∀ (m : LegacyManager) (pid : Int) (j : JoinEnv) (ep : Option GoError)
        (km : Except GoError Unit) (rs : List Property) (e : GoError)
        (o : UnitWaitOutcome),
        isUnitExists e = false →
        m.Cgroups.Paths = none →
        genV1ResourcesProperties m.Cgroups km = .ok rs →
        LegacyManager.Apply m pid
          ⟨j, fun nm _ps => startUnit nm (some e) o, ep, km⟩ = (some e, m) := by
  refine ⟨?_, ?_, ?_, ?_⟩
  · intro n e o he
    simp [startUnit, he]
  · intro n e o he
    simp [startUnit, he]
  · intro m pid j ep km e o he
    cases hp : m.Cgroups.Paths with
    | some cpaths => simp [LegacyManager.Apply, hp]
    | none =>
      simp only [LegacyManager.Apply, hp]
      cases hg : genV1ResourcesProperties m.Cgroups km with
      | error e1 => simp [hg]
      | ok rs => simp [hg, startUnit, he]
  · intro m pid j ep km rs e o he hp hg
    simp only [LegacyManager.Apply, hp]
    simp [hg, startUnit, he]

/-- A join environment where every controller resolves and joins cleanly. -/
def allOkJoinEnv : JoinEnv :=
  { subsysPath := fun n => .ok (str "/sys/fs/cgroup/" ++ n)
  , mkdirAll := fun _ => none
  , writeCgroupProc := fun _ => none
  , cpusetApplyDir := fun _ => none }

/-- Witness for C5 (amended) at a concrete manager and environment. -/
theorem c5_startUnit_already_exists_witness :
    startUnit (str "b.scope") (some unitExistsErr) (.completion (str "done")) = none
    ∧ LegacyManager.Apply ⟨{}, []⟩ 7
        ⟨allOkJoinEnv,
         fun nm _ps => startUnit nm (some unitExistsErr) (.completion (str "done")),
         none, .ok ()⟩
      = LegacyManager.Apply ⟨{}, []⟩ 7
          ⟨allOkJoinEnv, fun _nm _ps => none, none, .ok ()⟩ :=
  ⟨c5_startUnit_already_exists.1 (str "b.scope") unitExistsErr
    (.completion (str "done")) (by decide),
   c5_startUnit_already_exists.2.2.1 ⟨{}, []⟩ 7 allOkJoinEnv none (.ok ())
    unitExistsErr (.completion (str "done")) (by decide)⟩

-- ### C6: Freeze is transactional on the freezer field

/-- C6: for every requested freezer state, a failing freezer `Set` makes
`Freeze` return the error with the configuration's freezer field restored to
its pre-call value, and a successful `Set` leaves the field equal to the
requested state. -/
theorem c6_freeze_transactional (m : LegacyManager) (state : Str) (p : Str)
    (e : GoError) :
    (LegacyManager.Freeze m state (.ok p) (some e)).1 = some e
    ∧ (LegacyManager.Freeze m state (.ok p) (some e)).2.Cgroups.Resources.Freezer
        = m.Cgroups.Resources.Freezer
    ∧ (LegacyManager.Freeze m state (.ok p) none).1 = none
    ∧ (LegacyManager.Freeze m state (.ok p) none).2.Cgroups.Resources.Freezer = state :=
  ⟨rfl, rfl, rfl, rfl⟩

-- ### C7: the join-pass failure policy

def exceptIsOk {α β : Type} : Except α β → Bool
  | .ok _ => true
  | .error _ => false

/-- The claim's tolerance policy for one controller of the join pass, stated
from the spec's words: joining `"devices"` must succeed outright (any
failure, not-found included, is fatal); `"name=systemd"` is skipped;
`"cpuset"` must complete its `ApplyDir` step; every other controller may
fail only with a not-found error. -/
def joinPassSpecOk (env : JoinEnv) (name : Str) : Bool :=
  if name = str "name=systemd" then true
  else if name = str "cpuset" then (cpusetStep env).isNone
  else if name = str "devices" then exceptIsOk (join env name)
  else
    match join env name with
    | .ok _ => true
    | .error e => e.notFound

theorem joinStep_none_iff (env : JoinEnv) (n : Str) :
    joinStep env n = none ↔ joinPassSpecOk env n = true := by
  unfold joinStep joinPassSpecOk
  by_cases h1 : n = str "name=systemd"
  · simp [h1]
  · rw [if_neg h1, if_neg h1]
    by_cases h2 : n = str "cpuset"
    · simp [h2, Option.isNone_iff_eq_none]
    · rw [if_neg h2, if_neg h2]
      by_cases h3 : n = str "devices"
      · cases hj : join env n with
        | ok p => simp [h3, exceptIsOk]
        | error e => simp [h3, exceptIsOk]
      · cases hj : join env n with
        | ok p => simp [h3, exceptIsOk]
        | error e =>
          cases hnf : e.notFound <;> simp [h3, hnf]

theorem joinCgroupsAux_none_iff (env : JoinEnv) (l : List Str) :
    joinCgroupsAux env l = none ↔ ∀ n ∈ l, joinStep env n = none := by
  induction l with
  | nil => simp [joinCgroupsAux]
  | cons n rest ih =>
    simp only [joinCgroupsAux]
    cases hs : joinStep env n with
    | some e => simp [hs]
    | none => simp [hs, ih]

/-- C7: the join pass of `Apply` succeeds exactly when every controller
satisfies the claim's tolerance policy (`joinPassSpecOk`: any `"devices"`
join failure — including not-found — is fatal, `"name=systemd"` is skipped,
`"cpuset"` needs its `ApplyDir` to succeed, all other controllers tolerate
exactly the not-found failure); a failing `"devices"` join makes
`joinCgroups` — and `Apply` (last conjunct) — return that very error. -/
theorem c7_joinCgroups_policy :
    (∀ env : JoinEnv,
      joinCgroups env = none ↔ ∀ n ∈ legacySubsystemNames, joinPassSpecOk env n = true)
    ∧ (∀ (env : JoinEnv) (e : GoError), cpusetStep env = none →
        join env (str "devices") = .error e → joinCgroups env = some e)
    ∧ ∀ (m : LegacyManager) (pid : Int) (env : ApplyEnv) (rs : List Property)
        (e : GoError),
        m.Cgroups.Paths = none →
        genV1ResourcesProperties m.Cgroups env.setKernelMemoryResult = .ok rs →
        (∀ (nm : Str) (ps : List Property), env.startUnit nm ps = none) →
        joinCgroups env.jenv = some e →
        LegacyManager.Apply m pid env = (some e, m) := by
  refine ⟨?_, ?_, ?_⟩
  · intro env
    simp [joinCgroups, joinCgroupsAux_none_iff, joinStep_none_iff]
  · intro env e hc hd
    have h1 : joinStep env (str "cpuset") = cpusetStep env := rfl
    have hc' : joinStep env (str "cpuset") = none := h1.trans hc
    have h2 : joinStep env (str "devices") = some e := by
      unfold joinStep
      rw [if_neg (by decide), if_neg (by decide), hd]
      simp
    simp [joinCgroups, legacySubsystemNames, joinCgroupsAux, hc', h2]
  · intro m pid env rs e hp hg hsu hj
    simp only [LegacyManager.Apply, hp]
    simp [hg, hsu, hj]

/-- The not-found error the host produces when the devices hierarchy is not
mounted. -/
def devNotFoundErr : GoError :=
  { notFound := true, msg := str "mountpoint for devices not found" }

/-- A join environment where only the `"devices"` hierarchy is missing. -/
def envDevMissing : JoinEnv :=
  { subsysPath := fun n =>
      if n = str "devices" then .error devNotFoundErr
      else .ok (str "/sys/fs/cgroup/" ++ n)
  , mkdirAll := fun _ => none
  , writeCgroupProc := fun _ => none
  , cpusetApplyDir := fun _ => none }

/-- Witness for C7: a not-found `"devices"` failure alone aborts the join
pass with that error. -/
theorem c7_joinCgroups_policy_witness :
    joinCgroups envDevMissing = some devNotFoundErr :=
  c7_joinCgroups_policy.2.1 envDevMissing devNotFoundErr rfl rfl

-- ### C8: explicit-path mode short-circuits

/-- C8: with a non-nil explicit path map, `Destroy` and `Set` both return
`nil`, make no external call (empty event list — in particular no daemon
contact), and leave the manager — hence its path map — unchanged; outside
explicit-path mode a successful `Destroy` leaves an empty path map, so a
subsequent `GetPaths` returns the empty mapping. -/
theorem c8_explicit_mode_noop :
    (∀ (m : LegacyManager) (cp : List (Str × Str)) (stopErr : Option GoError),
      LegacyManager.Destroy
        { m with Cgroups := { m.Cgroups with Paths := some cp } } stopErr
      = (none, { m with Cgroups := { m.Cgroups with Paths := some cp } }, []))
    ∧ (∀ (m : LegacyManager) (cp : List (Str × Str)) (container : Cgroup)
        (env : SetEnv),
      LegacyManager.Set { m with Cgroups := { m.Cgroups with Paths := some cp } }
        container env = (none, []))
    ∧ ∀ (m : LegacyManager),
      LegacyManager.GetPaths
        (LegacyManager.Destroy
          { m with Cgroups := { m.Cgroups with Paths := none } } none).2.1 = [] :=
  ⟨fun _m _cp _stopErr => rfl, fun _m _cp _container _env => rfl, fun _m => rfl⟩

-- ### C10: Destroy is atomic on stop errors

/-- C10: outside explicit-path mode, a failing `stopUnit` makes `Destroy`
return that error with the path map untouched; the map is cleared to empty
exactly when `stopUnit` succeeds. -/
theorem c10_destroy_atomic (m : LegacyManager) (e : GoError) :
    LegacyManager.Destroy { m with Cgroups := { m.Cgroups with Paths := none } } (some e)
      = (some e, { m with Cgroups := { m.Cgroups with Paths := none } },
         [.stopUnitCall (getUnitName { m.Cgroups with Paths := none })])
    ∧ LegacyManager.Destroy { m with Cgroups := { m.Cgroups with Paths := none } } none
      = (none, { Cgroups := { m.Cgroups with Paths := none }, Paths := [] },
         [.stopUnitCall (getUnitName { m.Cgroups with Paths := none })]) :=
  ⟨rfl, rfl⟩
